import Mathlib

/-!
Verification of the LibFix core against its design specification.

The repository is dynamically-typed Python; we embed the relevant modules
shallowly.  JSON-like runtime values are modelled by `PyVal`; operations that
can raise a Python exception return `Except String _`, where `.error` models
an exception escaping the expression.  Machine-level concerns (floats in the
year computation, the wall clock) are made explicit: the current time is an
explicit `now : Int` parameter measured in days since 1970-01-01, timestamps
are parsed at day granularity, and the one-decimal year formatting is done by
exact rational rounding (ties are impossible, see `fmtYears1`).
-/

namespace LibFix

/-- Model of a Python/JSON runtime value.  Dictionary keys are restricted to
strings, which covers every value produced by JSON decoding and TOML loading
in this code base. -/
inductive PyVal where
  | none
  | bool (b : Bool)
  | int (n : Int)
  | str (s : String)
  | list (xs : List PyVal)
  | dict (entries : List (String × PyVal))

/-- Python truthiness (`bool(v)`): `None`, `False`, `0`, `""`, `[]`, and
an empty dict are falsy, everything else modelled here is truthy. -/
def truthy : PyVal → Bool
  | .none => false
  | .bool b => b
  | .int n => n != 0
  | .str s => s != ""
  | .list xs => !xs.isEmpty
  | .dict d => !d.isEmpty

/-- Python `v == k` where `k` is a string: only a string value can compare
equal to a string. -/
def pyEqStr (v : PyVal) (k : String) : Bool :=
  match v with
  | .str s => s == k
  | _ => false

/-- First value stored under key `k` in an association list (Python dict
lookup; dict keys are unique in Python, `find?` matches that). -/
def dictGet? (d : List (String × PyVal)) (k : String) : Option PyVal :=
  (d.find? (fun kv => kv.1 == k)).map (fun kv => kv.2)

/-- Check whether `needle` occurs as a contiguous run inside `hay`. -/
def charsInfixOf (needle : List Char) : List Char → Bool
  | [] => needle.isEmpty
  | c :: rest => needle.isPrefixOf (c :: rest) || charsInfixOf needle rest

/-- Python `k in v` for a string `k`: key membership for a dict, element
membership for a list, substring test for a string; a `TypeError` (modelled
as `.error`) for the non-container values. -/
def pyContains (v : PyVal) (k : String) : Except String Bool :=
  match v with
  | .dict d => .ok (d.any (fun kv => kv.1 == k))
  | .list xs => .ok (xs.any (fun x => pyEqStr x k))
  | .str s => .ok (charsInfixOf k.toList s.toList)
  | _ => .error "TypeError: argument is not iterable"

/-- Python `v[k]` for a string `k`: dict lookup (raising `KeyError` when the
key is absent), `TypeError` for every other value (string/list subscripts
require integers). -/
def pyGetItem (v : PyVal) (k : String) : Except String PyVal :=
  match v with
  | .dict d =>
    match dictGet? d k with
    | some x => .ok x
    | Option.none => .error "KeyError"
  | _ => .error "TypeError: value is not subscriptable with a string"

/-- Python iteration `for x in v`: a list yields its elements, a string its
one-character substrings, a dict its keys; other values raise `TypeError`. -/
def toIterable : PyVal → Except String (List PyVal)
  | .list xs => .ok xs
  | .str s => .ok (s.toList.map (fun c => .str (String.singleton c)))
  | .dict d => .ok (d.map (fun kv => .str kv.1))
  | _ => .error "TypeError: object is not iterable"

/-! ### Model of `packaging.version.Version` (third-party library)

`is_potentially_inactive` relies on `packaging.version.Version` for parsing
and ordering.  We model PEP 440 as that library implements it: a version is
optional surrounding whitespace and a case-insensitive `v`, an optional
epoch `N!`, a dot-separated numeric release, optional pre-release
(`a`/`b`/`c`/`rc`/`alpha`/`beta`/`pre`/`preview`, spelled-out forms
normalised to `a`/`b`/`rc`), optional post-release (`post`/`rev`/`r`, or a
bare `-N`), optional dev-release (`dev`), each with an optional `-`/`_`/`.`
separator and an optional number defaulting to 0, and an optional local part
`+seg(.seg)*`.  Anything else raises `InvalidVersion`.  The comparison key
is the library's `_cmpkey`: the tuple (epoch, release with trailing zeros
stripped, pre key, post key, dev key, local key), where a dev-only version's
pre key is negative infinity, an absent pre key is positive infinity, an
absent post or local key is negative infinity, an absent dev key is positive
infinity, and local segments compare numeric-above-string.  The separator
alternatives in the grammar never overlap with what can follow them, so the
greedy left-to-right parse below matches the library regex. -/

/-- Split a character list at every occurrence of `sep` (Python
`str.split(sep)` semantics: no merging, an empty input gives one empty
piece). -/
def splitOnCh (sep : Char) : List Char → List (List Char)
  | [] => [[]]
  | c :: rest =>
    match splitOnCh sep rest with
    | h :: t => if c == sep then [] :: h :: t else (c :: h) :: t
    | [] => if c == sep then [[], []] else [[c]]

/-- Numeric value of a list of decimal digit characters. -/
def digitsToNat (cs : List Char) : Nat :=
  cs.foldl (fun n c => 10 * n + (c.toNat - 48)) 0

/-- Python `str.strip()` (whitespace removed from both ends). -/
def pyStrip (cs : List Char) : List Char :=
  ((cs.dropWhile Char.isWhitespace).reverse.dropWhile Char.isWhitespace).reverse

/-- One segment of a PEP 440 local version: numeric segments are parsed as
integers, the rest kept as (lowercased) strings. -/
inductive LocalSeg where
  | num (n : Nat)
  | str (s : String)
deriving Repr, DecidableEq

/-- A parsed `packaging.version.Version`: epoch, release tuple, normalised
pre-release (letter code 0 = `a`, 1 = `b`, 2 = `rc`, paired with its
number), post-release number, dev-release number, and local segments. -/
structure PyVersion where
  epoch : Nat
  release : List Nat
  pre : Option (Nat × Nat)
  post : Option Nat
  dev : Option Nat
  localSegs : Option (List LocalSeg)
deriving Repr, DecidableEq

/-- Leading digit run of a character list and the rest. -/
def takeDigits (cs : List Char) : List Char × List Char :=
  (cs.takeWhile Char.isDigit, cs.dropWhile Char.isDigit)

/-- The `[-_.]` separator class of the PEP 440 grammar. -/
def isSep (c : Char) : Bool := c == '-' || c == '_' || c == '.'

/-- Consume one optional separator (`[-_.]?`). -/
def dropOptSep (cs : List Char) : List Char :=
  match cs with
  | c :: rest => if isSep c then rest else cs
  | [] => []

/-- The `(\.[0-9]+)*` tail of the release: repeatedly consume a dot followed
by a nonempty digit run, stopping (without consuming) otherwise.  Every step
consumes at least two characters, so fuel equal to the input length (as
supplied by `parseVersion`) never runs out. -/
def parseDotRuns : Nat → List Char → List Nat × List Char
  | 0, cs => ([], cs)
  | fuel + 1, cs =>
    match cs with
    | '.' :: rest =>
      let ds := rest.takeWhile Char.isDigit
      if ds.isEmpty then ([], '.' :: rest)
      else
        let (more, fin) := parseDotRuns fuel (rest.dropWhile Char.isDigit)
        (digitsToNat ds :: more, fin)
    | other => ([], other)

/-- First alternative of `alts` whose spelling is a prefix of the input, with
its code and the rest of the input.  The alternative lists below are ordered
so that the first hit is the only spelling after which the remainder can
still be part of a valid version, matching the backtracking regex. -/
def matchAlt (alts : List (List Char × Nat)) (cs : List Char) :
    Option (Nat × List Char) :=
  match alts with
  | [] => Option.none
  | (w, code) :: rest =>
    if w.isPrefixOf cs then some (code, cs.drop w.length)
    else matchAlt rest cs

/-- Pre-release spellings with their normalised letter codes
(`_parse_letter_version`: `alpha` is `a`, `beta` is `b`, `c`, `pre` and
`preview` are `rc`), longest spelling first among prefix-related ones. -/
def preLetters : List (List Char × Nat) :=
  [("preview".toList, 2), ("alpha".toList, 0), ("beta".toList, 1),
   ("pre".toList, 2), ("rc".toList, 2), ("a".toList, 0), ("b".toList, 1),
   ("c".toList, 2)]

/-- Post-release spellings (`post`, `rev`, `r`, all normalised to `post`). -/
def postLetters : List (List Char × Nat) :=
  [("post".toList, 0), ("rev".toList, 0), ("r".toList, 0)]

/-- Shared tail of the letter groups: after the matched letter, an optional
separator and an optional number defaulting to 0. -/
def parseLetterNum (alts : List (List Char × Nat)) (cs : List Char) :
    Option ((Nat × Nat) × List Char) :=
  match matchAlt alts (dropOptSep cs) with
  | Option.none => Option.none
  | some (code, rest) =>
    let rest1 := dropOptSep rest
    let ds := rest1.takeWhile Char.isDigit
    if ds.isEmpty then some ((code, 0), rest1)
    else some ((code, digitsToNat ds), rest1.dropWhile Char.isDigit)

/-- The optional pre-release group. -/
def parsePre (cs : List Char) : Option ((Nat × Nat) × List Char) :=
  parseLetterNum preLetters cs

/-- The optional post-release group: either the implicit `-N` spelling (the
regex's first alternative) or a letter spelling. -/
def parsePost (cs : List Char) : Option (Nat × List Char) :=
  match cs with
  | '-' :: rest =>
    let ds := rest.takeWhile Char.isDigit
    if !ds.isEmpty then some (digitsToNat ds, rest.dropWhile Char.isDigit)
    else (parseLetterNum postLetters cs).map (fun r => (r.1.2, r.2))
  | _ => (parseLetterNum postLetters cs).map (fun r => (r.1.2, r.2))

/-- The optional dev-release group. -/
def parseDev (cs : List Char) : Option (Nat × List Char) :=
  (parseLetterNum [("dev".toList, 0)] cs).map (fun r => (r.1.2, r.2))

/-- A character allowed inside a (lowercased) local segment: `[a-z0-9]`. -/
def isAlnum (c : Char) : Bool := c.isDigit || c.isLower

/-- The local part after its `+`: nonempty `[-_.]`-separated nonempty
alphanumeric segments covering the whole rest of the input (the local group
is the grammar's last component), numeric segments parsed as integers
(`_parse_local_version`). -/
def parseLocalPart (cs : List Char) : Option (List LocalSeg) :=
  match cs with
  | '+' :: rest =>
    let segs := (splitOnCh '-' rest).flatMap (splitOnCh '_') |>.flatMap
      (splitOnCh '.')
    if segs.all (fun s => !s.isEmpty && s.all isAlnum) then
      some (segs.map (fun s =>
        if s.all Char.isDigit then LocalSeg.num (digitsToNat s)
        else LocalSeg.str (String.mk s)))
    else Option.none
  | _ => Option.none

/-- Model of `Version(s)`: whitespace-stripped, lowercased, optional `v`,
then epoch, release, pre, post, dev and local groups in order, requiring the
whole input to be consumed; `Option.none` models `InvalidVersion` being
raised. -/
def parseVersion (s : String) : Option PyVersion :=
  let cs0 := (pyStrip s.toList).map Char.toLower
  let cs0 := match cs0 with
    | 'v' :: rest => rest
    | other => other
  let (epochN, cs1) :=
    match takeDigits cs0 with
    | (ds, '!' :: r1) => if ds.isEmpty then (0, cs0) else (digitsToNat ds, r1)
    | _ => (0, cs0)
  let (ds1, cs2) := takeDigits cs1
  if ds1.isEmpty then Option.none
  else
    let (moreRel, cs3) := parseDotRuns cs2.length cs2
    let release := digitsToNat ds1 :: moreRel
    let (pre, cs4) :=
      match parsePre cs3 with
      | some (p, rest) => (some p, rest)
      | Option.none => (Option.none, cs3)
    let (post, cs5) :=
      match parsePost cs4 with
      | some (n, rest) => (some n, rest)
      | Option.none => (Option.none, cs4)
    let (dev, cs6) :=
      match parseDev cs5 with
      | some (n, rest) => (some n, rest)
      | Option.none => (Option.none, cs5)
    match cs6 with
    | [] => some ⟨epochN, release, pre, post, dev, Option.none⟩
    | '+' :: _ =>
      match parseLocalPart cs6 with
      | some segs => some ⟨epochN, release, pre, post, dev, some segs⟩
      | Option.none => Option.none
    | _ => Option.none

/-! #### The comparison key (`packaging`'s `_cmpkey`)

Every component of the key is encoded into tuples of naturals, character
lists and segment lists, compared lexicographically; the generic comparator
combinators below assemble the full order and carry its order-theoretic
properties. -/

/-- Three-way comparison of naturals. -/
def cmpNat (a b : Nat) : Ordering :=
  if a < b then .lt else if b < a then .gt else .eq

/-- Compare by `c1` first, tie-break with `c2` (tuple comparison). -/
def thenCmp {α : Type} (c1 c2 : α → α → Ordering) (x y : α) : Ordering :=
  (c1 x y).then (c2 x y)

/-- Compare through a projection. -/
def pullCmp {α β : Type} (f : α → β) (c : β → β → Ordering) (x y : α) :
    Ordering :=
  c (f x) (f y)

/-- Lexicographic comparison of lists (Python tuple comparison: a strict
prefix is smaller). -/
def lexCmp {α : Type} (c : α → α → Ordering) : List α → List α → Ordering
  | [], [] => .eq
  | [], _ :: _ => .lt
  | _ :: _, [] => .gt
  | x :: xs, y :: ys => (c x y).then (lexCmp c xs ys)

/-- Comparison of pairs of naturals. -/
def cmpNat2 : Nat × Nat → Nat × Nat → Ordering :=
  thenCmp (pullCmp Prod.fst cmpNat) (pullCmp Prod.snd cmpNat)

/-- Comparison of triples of naturals. -/
def cmpNat3 : Nat × Nat × Nat → Nat × Nat × Nat → Ordering :=
  thenCmp (pullCmp Prod.fst cmpNat) (pullCmp Prod.snd cmpNat2)

/-- Trailing zero segments are dropped from the release before comparison
(`_cmpkey`'s reversed `dropwhile`). -/
def stripZeros (v : List Nat) : List Nat :=
  (v.reverse.dropWhile (fun n => n == 0)).reverse

/-- Pre-release comparison key: a dev-only version sorts below everything
(negative infinity, first component 0), a present pre-release in the middle
(letter `a` < `b` < `rc` then number), an absent pre-release above
(infinity, first component 2). -/
def preKey (v : PyVersion) : Nat × Nat × Nat :=
  match v.pre, v.post, v.dev with
  | Option.none, Option.none, some _ => (0, 0, 0)
  | Option.none, _, _ => (2, 0, 0)
  | some (l, n), _, _ => (1, l, n)

/-- Post-release key: absent sorts below present (negative infinity). -/
def postKey (v : PyVersion) : Nat × Nat :=
  match v.post with
  | Option.none => (0, 0)
  | some n => (1, n)

/-- Dev-release key: absent sorts above present (infinity). -/
def devKey (v : PyVersion) : Nat × Nat :=
  match v.dev with
  | Option.none => (1, 0)
  | some n => (0, n)

/-- Encoding of one local segment: integers sort above strings
(`(i, "")` versus `(NegativeInfinity, s)` in the library), integers by
value, strings by code points. -/
def segEnc : LocalSeg → Nat × Nat × List Char
  | .num n => (1, n, [])
  | .str s => (0, 0, s.toList)

/-- Comparison of characters by code point (Python string order). -/
def cmpChar : Char → Char → Ordering :=
  pullCmp Char.toNat cmpNat

/-- Comparison of local segments through their encoding. -/
def cmpSeg : LocalSeg → LocalSeg → Ordering :=
  pullCmp segEnc
    (thenCmp (pullCmp Prod.fst cmpNat)
      (thenCmp (pullCmp (fun t => t.2.1) cmpNat)
        (pullCmp (fun t => t.2.2) (lexCmp cmpChar))))

/-- Local version key: absent sorts below present (negative infinity), then
segment tuples lexicographically. -/
def localKey (v : PyVersion) : Nat × List LocalSeg :=
  match v.localSegs with
  | Option.none => (0, [])
  | some xs => (1, xs)

/-- The full `_cmpkey` order: epoch, then stripped release, then pre, post,
dev and local keys. -/
def vcmp : PyVersion → PyVersion → Ordering :=
  thenCmp (pullCmp PyVersion.epoch cmpNat)
    (thenCmp (pullCmp (fun v => stripZeros v.release) (lexCmp cmpNat))
      (thenCmp (pullCmp preKey cmpNat3)
        (thenCmp (pullCmp postKey cmpNat2)
          (thenCmp (pullCmp devKey cmpNat2)
            (pullCmp localKey
              (thenCmp (pullCmp Prod.fst cmpNat)
                (pullCmp Prod.snd (lexCmp cmpSeg))))))))

/-- Python `max` over a nonempty list of versions: start from the first
element, replace the current maximum only on a strictly greater candidate
(so on ties the earliest element is kept). -/
def pyMaxV (x : PyVersion) (xs : List PyVersion) : PyVersion :=
  xs.foldl (fun cur y => if vcmp y cur = .gt then y else cur) x

/-- Rendering of one local segment in `str(Version)`. -/
def renderSeg : LocalSeg → String
  | .num n => toString n
  | .str s => s

/-- Model of `str(Version)` (the library `__str__`): optional `N!` epoch,
dot-joined release, compact pre-release (`a`/`b`/`rc` plus number),
`.postN`, `.devN`, and `+`-prefixed dot-joined local segments. -/
def renderVersion (v : PyVersion) : String :=
  (if v.epoch ≠ 0 then toString v.epoch ++ "!" else "")
    ++ String.intercalate "." (v.release.map toString)
    ++ (match v.pre with
        | some (l, n) =>
          (if l = 0 then "a" else if l = 1 then "b" else "rc") ++ toString n
        | Option.none => "")
    ++ (match v.post with
        | some n => ".post" ++ toString n
        | Option.none => "")
    ++ (match v.dev with
        | some n => ".dev" ++ toString n
        | Option.none => "")
    ++ (match v.localSegs with
        | some xs => "+" ++ String.intercalate "." (xs.map renderSeg)
        | Option.none => "")

/-! ### Model of timestamps (`dateutil.parser.parse`, `datetime.now()`)

Upload timestamps on PyPI are ISO strings such as `"2021-03-04T05:06:07"`.
We model `dateutil.parser.parse` on the `YYYY-MM-DD...` shape at day
granularity, returning days since 1970-01-01; any other string raises.  The
ambient clock `datetime.now()` becomes an explicit `now : Int` parameter in
the same unit, and `(now − t).days` becomes plain integer subtraction. -/

/-- Days since 1970-01-01 of the civil date `y-m-d` (valid for `y ≥ 1`),
via the standard era/year-of-era computation. -/
def daysFromCivil (y m d : Nat) : Int :=
  let y' := if m ≤ 2 then y - 1 else y
  let era := y' / 400
  let yoe := y' - era * 400
  let mp := (m + 9) % 12
  let doy := (153 * mp + 2) / 5 + d - 1
  let doe := yoe * 365 + yoe / 4 - yoe / 100 + doy
  (era * 146097 + doe : Int) - 719468

/-- Model of `dateutil.parser.parse` restricted to `YYYY-MM-DD`-prefixed
strings (the PyPI upload-time shape), at day granularity; `Option.none`
models the parse raising. -/
def parseDate (s : String) : Option Int :=
  match s.toList with
  | y1 :: y2 :: y3 :: y4 :: s1 :: m1 :: m2 :: s2 :: d1 :: d2 :: _ =>
    if [y1, y2, y3, y4, m1, m2, d1, d2].all Char.isDigit
        && s1 == '-' && s2 == '-' then
      let m := digitsToNat [m1, m2]
      let d := digitsToNat [d1, d2]
      if 1 ≤ m && m ≤ 12 && 1 ≤ d && d ≤ 31 then
        some (daysFromCivil (digitsToNat [y1, y2, y3, y4]) m d)
      else Option.none
    else Option.none
  | _ => Option.none

/-- Python `parse_date(v)` on an arbitrary runtime value: only strings can be
parsed; other values raise. -/
def pyParseDate (v : PyVal) : Except String Int :=
  match v with
  | .str s =>
    match parseDate s with
    | some d => .ok d
    | Option.none => .error "ParserError: unknown date format"
  | _ => .error "TypeError: parse expects a string"

/-- Python `max` over a nonempty list of timestamps (earliest kept on ties,
which for a total order is just the maximum). -/
def pyMaxDate (x : Int) (xs : List Int) : Int :=
  xs.foldl (fun cur y => if cur < y then y else cur) x

/-! ### `src/data/inactive_packages.py` -/

/-- Entry of the curated override table.  The code reads both fields with
`dict.get` and a default, so each field is optional in the model. -/
structure OverrideEntry where
  reason : Option String
  alternatives : Option (List String)
deriving Repr, DecidableEq

/-- The module-level table `inactive_package_replacements`, verbatim. -/
def inactive_package_replacements : List (String × OverrideEntry) :=
  [("old-package-1",
    ⟨some "No updates in over 3 years, known security vulnerabilities.",
     some ["active-package-1", "another-good-option"]⟩),
   ("another-stale-lib",
    ⟨some "Project seems abandoned, maintainers unresponsive.",
     some ["maintained-lib"]⟩)]

/-- Python `package_name in inactive_package_replacements` followed by the
subscript on the same key. -/
def lookupOverride (name : String) : Option OverrideEntry :=
  (inactive_package_replacements.find? (fun kv => kv.1 == name)).map
    (fun kv => kv.2)

/-! ### `src/core/dependency_analyzer.py` -/

/-- Result triple of `is_potentially_inactive`:
`(bool, reason string, alternatives list)`. -/
structure Verdict where
  isInactive : Bool
  reason : String
  alternatives : List String
deriving Repr, DecidableEq

/-- Verdict of the `not package_info or 'info' not in package_info or
'releases' not in package_info` early return (line 27). -/
def insufficientVerdict : Verdict :=
  ⟨false, "Could not retrieve sufficient PyPI information.", []⟩

/-- Verdict of the final fallback (line 60). -/
def activeVerdict : Verdict := ⟨false, "Seems active.", []⟩

/-- Comprehension `[Version(v) for v in releases.keys() if v]` restricted to
its parsing part: parse every key left to right, raising (collectively, as
the comprehension does) at the first unparsable one.  The truthiness filter
`if v` is applied by the caller. -/
def parseAll : List String → Except String (List PyVersion)
  | [] => .ok []
  | k :: ks =>
    match parseVersion k with
    | some p =>
      match parseAll ks with
      | .ok ps => .ok (p :: ps)
      | .error e => .error e
    | Option.none => .error ("InvalidVersion: " ++ k)

/-- Comprehension of line 40:
`[parse_date(r['upload_time']) for r in entries if 'upload_time' in r and
r['upload_time']]`.  Conditions and parses are evaluated left to right and
any raise aborts the whole comprehension. -/
def collectDates : List PyVal → Except String (List Int)
  | [] => .ok []
  | r :: rs =>
    match pyContains r "upload_time" with
    | .error e => .error e
    | .ok false => collectDates rs
    | .ok true =>
      match pyGetItem r "upload_time" with
      | .error e => .error e
      | .ok v =>
        if truthy v then
          match pyParseDate v with
          | .error e => .error e
          | .ok d =>
            match collectDates rs with
            | .ok ds => .ok (d :: ds)
            | .error e => .error e
        else collectDates rs

/-- Body of the `try` block of lines 36–42, producing
`latest_release_date` (`.error` models an exception reaching the `except`). -/
def attemptLatest (releases : PyVal) : Except String (Option Int) :=
  match releases with
  | .dict rel =>
    match parseAll ((rel.map (fun kv => kv.1)).filter (fun k => k != "")) with
    | .error e => .error e
    | .ok [] => .ok Option.none
    | .ok (p :: ps) =>
      let latest_version_str := renderVersion (pyMaxV p ps)
      let entries := (dictGet? rel latest_version_str).getD (.list [])
      match toIterable entries with
      | .error e => .error e
      | .ok items =>
        match collectDates items with
        | .error e => .error e
        | .ok [] => .ok Option.none
        | .ok (d :: ds) => .ok (some (pyMaxDate d ds))
  | _ => .error "AttributeError: object has no attribute keys"

/-- Lines 33–44: `latest_release_date` after the `try/except`.  The guard
`if releases:` skips a falsy value, and the `except Exception` clause
swallows every exception from the block (printing a diagnostic), leaving the
date unset. -/
def computeLatestReleaseDate (releases : PyVal) : Option Int :=
  if truthy releases then
    match attemptLatest releases with
    | .ok d => d
    | .error _ => Option.none
  else Option.none

/-- One-decimal rendering of `days / 365.25`, modelling the Python
`f"{years:.1f}"` on the float quotient by exact rational rounding to the
nearest tenth.  A tie `days·40/1461 = k + 1/2` would need `80·days` to be an
odd multiple of 1461, which forces the even number `80·days/1461` to be odd —
impossible — so nearest rounding is unambiguous and agrees with the float
computation for the magnitudes involved.  Used only with `days > 730`. -/
def fmtYears1 (days : Int) : String :=
  let t := (80 * days.toNat + 1461) / 2922
  toString (t / 10) ++ "." ++ toString (t % 10)

/-- Reason string of the staleness verdict (line 50). -/
def staleReason (days : Int) : String :=
  "Last release was over " ++ fmtYears1 days ++ " years ago."

/-- Loop of lines 54–58 over the classifier values, with the final fallback
of line 60.  Each comparison is Python `==` against a string literal, so a
non-string element never matches and the scan continues. -/
def scanClassifiers : List PyVal → Verdict
  | [] => activeVerdict
  | c :: cs =>
    if pyEqStr c "Development Status :: 7 - Inactive" then
      ⟨true, "Marked as 'Inactive' on PyPI.", []⟩
    else if pyEqStr c "Development Status :: 6 - Mature"
        || pyEqStr c "Development Status :: 5 - Production/Stable" then
      ⟨false, "Seems to be in a mature/stable state.", []⟩
    else scanClassifiers cs

/-- Lines 52–60: `info.get('classifiers', [])` followed by the scan.  A
non-dict `info` raises `AttributeError` at the `.get` call and a non-iterable
classifier value raises `TypeError` at the `for`; neither is caught anywhere
in the function. -/
def classifierStep (info : PyVal) : Except String Verdict :=
  match info with
  | .dict d =>
    match toIterable ((dictGet? d "classifiers").getD (.list [])) with
    | .error e => .error e
    | .ok items => .ok (scanClassifiers items)
  | _ => .error "AttributeError: object has no attribute get"

/-- Lines 33–60 once `info` and `releases` are bound: the staleness check
(firing when the float `days/365.25` exceeds 2, i.e. `days > 730.5`,
i.e. `1461 < 2·days`) and otherwise the classifier scan. -/
def stalenessStep (now : Int) (info releases : PyVal) :
    Except String Verdict :=
  match computeLatestReleaseDate releases with
  | some d =>
    if 1461 < 2 * (now - d) then
      .ok ⟨true, staleReason (now - d), []⟩
    else classifierStep info
  | Option.none => classifierStep info

/-- Lines 26–60: everything after the curated-table check.  The `or` chain
of line 26 evaluates left to right with short-circuiting, so the membership
tests (which can raise on a non-container) run only on a truthy value, and
the `releases` test runs only when `info` is present. -/
def afterOverride (now : Int) (package_info : PyVal) :
    Except String Verdict :=
  if truthy package_info then
    match pyContains package_info "info" with
    | .error e => .error e
    | .ok false => .ok insufficientVerdict
    | .ok true =>
      match pyContains package_info "releases" with
      | .error e => .error e
      | .ok false => .ok insufficientVerdict
      | .ok true =>
        match pyGetItem package_info "info" with
        | .error e => .error e
        | .ok info =>
          match pyGetItem package_info "releases" with
          | .error e => .error e
          | .ok releases => stalenessStep now info releases
  else .ok insufficientVerdict

/-- The classifier entry point `is_potentially_inactive(package_info,
package_name)`.  `now` is the explicit reading of `datetime.now()` (in days
since 1970-01-01); an absent metadata document is `PyVal.none`; `.error e`
models a Python exception escaping the function. -/
def is_potentially_inactive (now : Int) (package_info : PyVal)
    (package_name : String) : Except String Verdict :=
  match lookupOverride package_name with
  | some inactive_data =>
    .ok ⟨true,
      "Known inactive package: "
        ++ inactive_data.reason.getD "No specific reason provided.",
      inactive_data.alternatives.getD []⟩
  | Option.none => afterOverride now package_info

/-- Equality of modelled Python outcomes is decidable (used to evaluate the
model on concrete inputs). -/
instance {ε α : Type} [DecidableEq ε] [DecidableEq α] :
    DecidableEq (Except ε α) := fun a b =>
  match a, b with
  | .ok x, .ok y =>
    if h : x = y then .isTrue (by rw [h])
    else .isFalse (by intro hc; cases hc; exact h rfl)
  | .error x, .error y =>
    if h : x = y then .isTrue (by rw [h])
    else .isFalse (by intro hc; cases hc; exact h rfl)
  | .ok _, .error _ => .isFalse (by intro hc; cases hc)
  | .error _, .ok _ => .isFalse (by intro hc; cases hc)

/-! ### `src/core/dependency_parser.py` — `parse_pyproject_toml`

We model the function from the successfully loaded TOML data onward (the
missing-file and decode-error paths return an empty list after a diagnostic
and are not the subject of any claim).  `toml.load` yields a dict, modelled
as a `PyVal`. -/

/-- Python `str(v)` as used inside the f-string of line 188, for the scalar
values that occur in dependency tables.  The repr of containers is not
modelled (no claim exercises it). -/
def pyStr : PyVal → String
  | .str s => s
  | .int n => toString n
  | .bool b => if b then "True" else "False"
  | .none => "None"
  | .list _ => ""
  | .dict _ => ""

/-- Loop body of lines 184–188: for every `(package, version)` item, when
`package != 'python'`, append `package` followed by `version` unless the
version equals the wildcard `"*"` (a non-string version never equals it). -/
def poetryDepStep (acc : List String) (kv : String × PyVal) : List String :=
  if kv.1 != "python" then
    acc ++ [kv.1 ++ (if pyEqStr kv.2 "*" then "" else pyStr kv.2)]
  else acc

/-- Lines 180–193 of `parse_pyproject_toml`, starting from the loaded TOML
`data`: the guarded descent `data['tool']['poetry']['dependencies']` and the
accumulation loop.  Dictionary-shaped failures raise (uncaught by the two
`except` clauses, which only cover `FileNotFoundError` and
`TomlDecodeError`). -/
def parse_pyproject_toml (data : PyVal) : Except String (List String) :=
  match pyContains data "tool" with
  | .error e => .error e
  | .ok false => .ok []
  | .ok true =>
    match pyGetItem data "tool" with
    | .error e => .error e
    | .ok tool =>
      match pyContains tool "poetry" with
      | .error e => .error e
      | .ok false => .ok []
      | .ok true =>
        match pyGetItem tool "poetry" with
        | .error e => .error e
        | .ok poetry =>
          match pyContains poetry "dependencies" with
          | .error e => .error e
          | .ok false => .ok []
          | .ok true =>
            match pyGetItem poetry "dependencies" with
            | .error e => .error e
            | .ok deps =>
              match deps with
              | .dict items => .ok (items.foldl poetryDepStep [])
              | _ => .error "AttributeError: object has no attribute items"

/-- Canonical document carrying a `tool.poetry.dependencies` table whose
constraints are strings — the well-formed shape the structured-table claims
quantify over. -/
def mkPoetryDoc (deps : List (String × String)) : PyVal :=
  PyVal.dict
    [("tool", PyVal.dict
      [("poetry", PyVal.dict
        [("dependencies",
          PyVal.dict (deps.map (fun kv => (kv.1, PyVal.str kv.2))))])])]

/-! ### `src/core/dependency_parser.py` — `parse_setup_py`

The function reads the file's whole text and applies
`re.search(r"install_requires=\[([^\]]*)\]", content)`; we model the
function on the file content (the missing-file path returns `[]` after a
diagnostic).  The regex finds the leftmost occurrence of the literal
`install_requires=[` that is followed by a run of non-`]` characters and a
closing `]`; if the leftmost occurrence of the literal has no later `]` in
the text, no later occurrence has one either, so searching from the first
occurrence is exact. -/

/-- Suffix of `hay` just after the leftmost occurrence of `needle`. -/
def findAfterSub (needle : List Char) : List Char → Option (List Char)
  | [] => if needle.isEmpty then some [] else Option.none
  | c :: rest =>
    if needle.isPrefixOf (c :: rest) then
      some (List.drop needle.length (c :: rest))
    else findAfterSub needle rest

/-- Capture group of the regex of line 156: the run of non-`]` characters
between the leftmost `install_requires=[` and the following `]`, when the
pattern matches at all. -/
def findInstallRequires (content : String) : Option String :=
  match findAfterSub "install_requires=[".toList content.toList with
  | Option.none => Option.none
  | some rest =>
    if (rest.dropWhile (fun c => c != ']')).isEmpty then Option.none
    else some (String.mk (rest.takeWhile (fun c => c != ']')))

/-- Python `str.strip(q)` for a single character `q`: every leading and
trailing occurrence is removed. -/
def stripCharEnds (q : Char) (cs : List Char) : List Char :=
  ((cs.dropWhile (fun c => c == q)).reverse.dropWhile (fun c => c == q)).reverse

/-- Line 161's per-piece cleanup: `dep.strip().strip("'").strip('"')`. -/
def cleanDep (cs : List Char) : String :=
  String.mk (stripCharEnds '"' (stripCharEnds '\'' (pyStrip cs)))

/-- Lines 151–164 of `parse_setup_py` on the file content: when the regex
matches, the capture is stripped, split on commas (Python `split(',')`
yields one empty piece for an empty string), and each piece cleaned. -/
def parse_setup_py (content : String) : List String :=
  match findInstallRequires content with
  | some cap => (splitOnCh ',' (pyStrip cap.toList)).map cleanDep
  | Option.none => []

/-! ### `src/core/dependency_finder.py`

`find_dependency_files` drives `os.walk`; the traversal (a library effect)
is modelled by its observable outcome: the list of visited `(root, files)`
pairs, in traversal order.  `os.walk` on a nonexistent or unreadable root
yields nothing and raises nothing (errors are swallowed by default), so a
nonexistent root is modelled by the empty traversal. -/

/-- One `(root, dirs, files)` triple yielded by `os.walk` (the unused `dirs`
component is omitted). -/
structure WalkEntry where
  root : String
  files : List String

/-- The dict literal of lines 224–228: exactly the three keys
`requirements`, `setup`, `pyproject`. -/
structure DependencyFiles where
  requirements : List String
  setup : List String
  pyproject : List String
deriving Repr, DecidableEq

/-- Python `os.path.join(root, f)` (POSIX flavour) for the shapes that occur
here. -/
def osPathJoin (a b : String) : String :=
  if b.startsWith "/" then b
  else if a = "" then b
  else if a.endsWith "/" then a ++ b
  else a ++ "/" ++ b

/-- Loop body of lines 231–237: exact, case-sensitive filename match against
the three manifest names, appending the joined path to the matching bucket. -/
def fileStep (root : String) (acc : DependencyFiles) (f : String) :
    DependencyFiles :=
  if f == "requirements.txt" then
    { acc with requirements := acc.requirements ++ [osPathJoin root f] }
  else if f == "setup.py" then
    { acc with setup := acc.setup ++ [osPathJoin root f] }
  else if f == "pyproject.toml" then
    { acc with pyproject := acc.pyproject ++ [osPathJoin root f] }
  else acc

/-- One `os.walk` step of line 230: fold the filename loop over the files of
the visited directory. -/
def walkStep (acc : DependencyFiles) (e : WalkEntry) : DependencyFiles :=
  e.files.foldl (fileStep e.root) acc

/-- `find_dependency_files(project_directory)` as a function of the
traversal that `os.walk` produces for that directory. -/
def find_dependency_files (walk : List WalkEntry) : DependencyFiles :=
  walk.foldl walkStep ⟨[], [], []⟩

/-- Paths of the files named `name` in a traversal, in traversal order, each
joined to its directory — the specification-level description of one bucket
of the result. -/
def walkMatches (name : String) (walk : List WalkEntry) : List String :=
  walk.flatMap
    (fun e => (e.files.filter (fun f => f == name)).map
      (fun f => osPathJoin e.root f))

/-! ### Order-theoretic facts about the version comparison -/

/-- Properties of a three-way comparison realising a linear preorder:
reflexively `.eq`, swap exchanging `.lt` and `.gt`, transitivity of the
strict part, and left-congruence of the kernel. -/
def IsLinearCmp {α : Type} (c : α → α → Ordering) : Prop :=
  (∀ x, c x x = .eq) ∧
  (∀ x y, c x y = .lt ↔ c y x = .gt) ∧
  (∀ x y z, c x y = .lt → c y z = .lt → c x z = .lt) ∧
  (∀ x y z, c x y = .eq → c x z = c y z)

/-- The kernel of a linear comparison is symmetric. -/
theorem eqSymm_of_linear {α : Type} {c : α → α → Ordering}
    (hl : IsLinearCmp c) : ∀ x y, c x y = .eq → c y x = .eq := by
  intro x y h
  cases hc : c y x with
  | lt =>
    have h3 := (hl.2.1 y x).mp hc
    rw [h] at h3
    exact absurd h3 (by decide)
  | gt =>
    have h3 := (hl.2.1 x y).mpr hc
    rw [h] at h3
    exact absurd h3 (by decide)
  | eq => rfl

/-- Natural-number comparison is a linear comparison. -/
theorem cmpNat_isLinear : IsLinearCmp cmpNat := by
  refine ⟨?_, ?_, ?_, ?_⟩
  · intro x; simp [cmpNat]
  · intro x y
    unfold cmpNat
    rcases Nat.lt_trichotomy x y with h | h | h
    · rw [if_pos h, if_neg (by omega), if_pos h]; simp
    · subst h; simp
    · rw [if_neg (by omega), if_pos h, if_pos h]; simp
  · intro x y z h1 h2
    unfold cmpNat at h1 h2 ⊢
    have hxy : x < y := by
      by_cases hc : x < y
      · exact hc
      · rw [if_neg hc] at h1
        by_cases hyx : y < x
        · rw [if_pos hyx] at h1; exact absurd h1 (by decide)
        · rw [if_neg hyx] at h1; exact absurd h1 (by decide)
    have hyz : y < z := by
      by_cases hc : y < z
      · exact hc
      · rw [if_neg hc] at h2
        by_cases hzy : z < y
        · rw [if_pos hzy] at h2; exact absurd h2 (by decide)
        · rw [if_neg hzy] at h2; exact absurd h2 (by decide)
    rw [if_pos (by omega : x < z)]
  · intro x y z h
    have hxy : x = y := by
      unfold cmpNat at h
      by_cases h1 : x < y
      · rw [if_pos h1] at h; exact absurd h (by decide)
      · by_cases h2 : y < x
        · rw [if_neg h1, if_pos h2] at h; exact absurd h (by decide)
        · omega
    rw [hxy]

/-- Comparing through a projection preserves linearity. -/
theorem pullCmp_isLinear {α β : Type} (f : α → β) {c : β → β → Ordering}
    (hl : IsLinearCmp c) : IsLinearCmp (pullCmp f c) :=
  ⟨fun x => hl.1 (f x), fun x y => hl.2.1 (f x) (f y),
   fun x y z => hl.2.2.1 (f x) (f y) (f z),
   fun x y z => hl.2.2.2 (f x) (f y) (f z)⟩

/-- Tie-breaking composition preserves linearity (tuple comparison). -/
theorem thenCmp_isLinear {α : Type} {c1 c2 : α → α → Ordering}
    (h1 : IsLinearCmp c1) (h2 : IsLinearCmp c2) :
    IsLinearCmp (thenCmp c1 c2) := by
  have sym1 := eqSymm_of_linear h1
  obtain ⟨r1, s1, t1, e1⟩ := h1
  obtain ⟨r2, s2, t2, e2⟩ := h2
  refine ⟨?_, ?_, ?_, ?_⟩
  · intro x
    unfold thenCmp
    rw [r1 x]
    simp only [Ordering.then]
    exact r2 x
  · intro x y
    unfold thenCmp
    cases hc : c1 x y with
    | lt => rw [(s1 x y).mp hc]; simp [Ordering.then]
    | gt => rw [(s1 y x).mpr hc]; simp [Ordering.then]
    | eq =>
      rw [sym1 x y hc]
      simp only [Ordering.then]
      exact s2 x y
  · intro x y z hxy hyz
    unfold thenCmp at hxy hyz ⊢
    cases hc1 : c1 x y with
    | lt =>
      cases hc2 : c1 y z with
      | lt => rw [t1 x y z hc1 hc2]; simp [Ordering.then]
      | eq =>
        have hzy := sym1 y z hc2
        have hcong := e1 z y x hzy
        have hyx : c1 y x = .gt := (s1 x y).mp hc1
        have hzx : c1 z x = .gt := hcong.trans hyx
        have hxz : c1 x z = .lt := (s1 x z).mpr hzx
        rw [hxz]; simp [Ordering.then]
      | gt => rw [hc2] at hyz; simp [Ordering.then] at hyz
    | eq =>
      rw [hc1] at hxy
      simp only [Ordering.then] at hxy
      have hcong := e1 x y z hc1
      cases hc2 : c1 y z with
      | lt => rw [hcong, hc2]; simp [Ordering.then]
      | gt => rw [hc2] at hyz; simp [Ordering.then] at hyz
      | eq =>
        rw [hc2] at hyz
        simp only [Ordering.then] at hyz
        rw [hcong, hc2]
        simp only [Ordering.then]
        exact t2 x y z hxy hyz
    | gt => rw [hc1] at hxy; simp [Ordering.then] at hxy
  · intro x y z h
    unfold thenCmp at h ⊢
    have hc1 : c1 x y = .eq := by
      cases hc : c1 x y with
      | eq => rfl
      | lt => rw [hc] at h; simp [Ordering.then] at h
      | gt => rw [hc] at h; simp [Ordering.then] at h
    rw [hc1] at h
    simp only [Ordering.then] at h
    rw [e1 x y z hc1, e2 x y z h]

/-- Lexicographic list comparison is reflexively `.eq`. -/
theorem lexCmp_refl {α : Type} {c : α → α → Ordering}
    (hr : ∀ x : α, c x x = .eq) : ∀ a : List α, lexCmp c a a = .eq
  | [] => rfl
  | x :: xs => by
    simp only [lexCmp]
    rw [hr x]
    simp only [Ordering.then]
    exact lexCmp_refl hr xs

/-- Swapping the lists exchanges `.lt` and `.gt`. -/
theorem lexCmp_swap {α : Type} {c : α → α → Ordering}
    (hs : ∀ x y : α, c x y = .lt ↔ c y x = .gt)
    (hsym : ∀ x y : α, c x y = .eq → c y x = .eq) :
    ∀ a b : List α, lexCmp c a b = .lt ↔ lexCmp c b a = .gt
  | [], [] => by simp [lexCmp]
  | [], _ :: _ => by simp [lexCmp]
  | _ :: _, [] => by simp [lexCmp]
  | x :: xs, y :: ys => by
    simp only [lexCmp]
    cases hc : c x y with
    | lt => rw [(hs x y).mp hc]; simp [Ordering.then]
    | gt => rw [(hs y x).mpr hc]; simp [Ordering.then]
    | eq =>
      rw [hsym x y hc]
      simp only [Ordering.then]
      exact lexCmp_swap hs hsym xs ys

/-- Strict lexicographic list comparison is transitive. -/
theorem lexCmp_trans {α : Type} {c : α → α → Ordering}
    (hl : IsLinearCmp c) :
    ∀ a b d : List α, lexCmp c a b = .lt → lexCmp c b d = .lt →
      lexCmp c a d = .lt
  | [], [], _ => by intro h1 _; exact absurd h1 (by simp [lexCmp])
  | [], _ :: _, [] => by intro _ h2; exact absurd h2 (by simp [lexCmp])
  | [], _ :: _, _ :: _ => by intro _ _; simp [lexCmp]
  | _ :: _, [], _ => by intro h1 _; exact absurd h1 (by simp [lexCmp])
  | _ :: _, _ :: _, [] => by intro _ h2; exact absurd h2 (by simp [lexCmp])
  | x :: xs, y :: ys, z :: zs => by
    intro h1 h2
    simp only [lexCmp] at h1 h2 ⊢
    cases hc1 : c x y with
    | lt =>
      cases hc2 : c y z with
      | lt => rw [hl.2.2.1 x y z hc1 hc2]; simp [Ordering.then]
      | eq =>
        have hzy := eqSymm_of_linear hl y z hc2
        have hcong := hl.2.2.2 z y x hzy
        have hyx : c y x = .gt := (hl.2.1 x y).mp hc1
        have hzx : c z x = .gt := hcong.trans hyx
        have hxz : c x z = .lt := (hl.2.1 x z).mpr hzx
        rw [hxz]; simp [Ordering.then]
      | gt => rw [hc2] at h2; simp [Ordering.then] at h2
    | eq =>
      rw [hc1] at h1
      simp only [Ordering.then] at h1
      have hcong := hl.2.2.2 x y z hc1
      cases hc2 : c y z with
      | lt => rw [hcong, hc2]; simp [Ordering.then]
      | gt => rw [hc2] at h2; simp [Ordering.then] at h2
      | eq =>
        rw [hc2] at h2
        simp only [Ordering.then] at h2
        rw [hcong, hc2]
        simp only [Ordering.then]
        exact lexCmp_trans hl xs ys zs h1 h2
    | gt => rw [hc1] at h1; simp [Ordering.then] at h1

/-- A list kernel-equal to another compares identically against any third. -/
theorem lexCmp_congr {α : Type} {c : α → α → Ordering}
    (hl : IsLinearCmp c) :
    ∀ a b d : List α, lexCmp c a b = .eq → lexCmp c a d = lexCmp c b d
  | [], [], _ => fun _ => rfl
  | [], _ :: _, _ => by intro h; simp [lexCmp] at h
  | _ :: _, [], _ => by intro h; simp [lexCmp] at h
  | _ :: _, _ :: _, [] => fun _ => rfl
  | x :: xs, y :: ys, z :: zs => by
    intro h
    simp only [lexCmp] at h ⊢
    have hc1 : c x y = .eq := by
      cases hc : c x y with
      | eq => rfl
      | lt => rw [hc] at h; simp [Ordering.then] at h
      | gt => rw [hc] at h; simp [Ordering.then] at h
    rw [hc1] at h
    simp only [Ordering.then] at h
    rw [hl.2.2.2 x y z hc1, lexCmp_congr hl xs ys zs h]

/-- Lexicographic list comparison of a linear comparison is linear. -/
theorem lexCmp_isLinear {α : Type} {c : α → α → Ordering}
    (hl : IsLinearCmp c) : IsLinearCmp (lexCmp c) :=
  ⟨lexCmp_refl hl.1, lexCmp_swap hl.2.1 (eqSymm_of_linear hl),
   lexCmp_trans hl, lexCmp_congr hl⟩

/-- Pair comparison is linear. -/
theorem cmpNat2_isLinear : IsLinearCmp cmpNat2 :=
  thenCmp_isLinear (pullCmp_isLinear Prod.fst cmpNat_isLinear)
    (pullCmp_isLinear Prod.snd cmpNat_isLinear)

/-- Triple comparison is linear. -/
theorem cmpNat3_isLinear : IsLinearCmp cmpNat3 :=
  thenCmp_isLinear (pullCmp_isLinear Prod.fst cmpNat_isLinear)
    (pullCmp_isLinear Prod.snd cmpNat2_isLinear)

/-- Character comparison is linear. -/
theorem cmpChar_isLinear : IsLinearCmp cmpChar :=
  pullCmp_isLinear Char.toNat cmpNat_isLinear

/-- Local-segment comparison is linear. -/
theorem cmpSeg_isLinear : IsLinearCmp cmpSeg :=
  pullCmp_isLinear segEnc
    (thenCmp_isLinear (pullCmp_isLinear Prod.fst cmpNat_isLinear)
      (thenCmp_isLinear (pullCmp_isLinear (fun t => t.2.1) cmpNat_isLinear)
        (pullCmp_isLinear (fun t => t.2.2)
          (lexCmp_isLinear cmpChar_isLinear))))

/-- The full version comparison is a linear comparison. -/
theorem vcmp_isLinear : IsLinearCmp vcmp :=
  thenCmp_isLinear (pullCmp_isLinear PyVersion.epoch cmpNat_isLinear)
    (thenCmp_isLinear
      (pullCmp_isLinear (fun v => stripZeros v.release)
        (lexCmp_isLinear cmpNat_isLinear))
      (thenCmp_isLinear (pullCmp_isLinear preKey cmpNat3_isLinear)
        (thenCmp_isLinear (pullCmp_isLinear postKey cmpNat2_isLinear)
          (thenCmp_isLinear (pullCmp_isLinear devKey cmpNat2_isLinear)
            (pullCmp_isLinear localKey
              (thenCmp_isLinear (pullCmp_isLinear Prod.fst cmpNat_isLinear)
                (pullCmp_isLinear Prod.snd
                  (lexCmp_isLinear cmpSeg_isLinear))))))))

/-- Being at-least-as-large under a linear comparison is transitive. -/
theorem neLt_trans_of_linear {α : Type} {c : α → α → Ordering}
    (hl : IsLinearCmp c) {x y z : α} (h1 : c x y ≠ .lt)
    (h2 : c y z ≠ .lt) : c x z ≠ .lt := by
  intro hc
  cases hc1 : c x y with
  | lt => exact h1 hc1
  | eq =>
    have hcong := hl.2.2.2 x y z hc1
    rw [hcong] at hc
    exact h2 hc
  | gt =>
    have hyx : c y x = .lt := (hl.2.1 y x).mpr hc1
    cases hc2 : c y z with
    | lt => exact h2 hc2
    | eq =>
      have hcong := hl.2.2.2 y z x hc2
      have hzx : c z x = .lt := hcong.symm.trans hyx
      have hgt : c x z = .gt := (hl.2.1 z x).mp hzx
      rw [hc] at hgt
      exact absurd hgt (by decide)
    | gt =>
      have hzy : c z y = .lt := (hl.2.1 z y).mpr hc2
      have hzx : c z x = .lt := hl.2.2.1 z y x hzy hyx
      have hgt : c x z = .gt := (hl.2.1 z x).mp hzx
      rw [hc] at hgt
      exact absurd hgt (by decide)

/-- The version comparison is reflexively `.eq`. -/
theorem vcmp_self (a : PyVersion) : vcmp a a = .eq :=
  vcmp_isLinear.1 a

/-- Being at-least-as-large under the version comparison is transitive. -/
theorem vcmp_ne_lt_trans {a b c : PyVersion} (h1 : vcmp a b ≠ .lt)
    (h2 : vcmp b c ≠ .lt) : vcmp a c ≠ .lt :=
  neLt_trans_of_linear vcmp_isLinear h1 h2

/-- Not being strictly greater means being at-most-as-large. -/
theorem vcmp_ne_lt_of_ne_gt {a b : PyVersion} (h : vcmp b a ≠ .gt) :
    vcmp a b ≠ .lt := by
  intro hc
  exact h ((vcmp_isLinear.2.1 a b).mp hc)

/-- The fold that models Python `max` over parsed versions returns an
element of the candidate list that no candidate strictly exceeds. -/
theorem pyMaxV_spec : ∀ (ps : List PyVersion) (p : PyVersion),
    (pyMaxV p ps = p ∨ pyMaxV p ps ∈ ps) ∧ vcmp (pyMaxV p ps) p ≠ .lt ∧
      ∀ q ∈ ps, vcmp (pyMaxV p ps) q ≠ .lt := by
  intro ps
  induction ps with
  | nil =>
    intro p
    refine ⟨.inl rfl, ?_, by simp⟩
    simp [pyMaxV, vcmp_self]
  | cons y ys ih =>
    intro p
    have hstep : pyMaxV p (y :: ys) = pyMaxV (if vcmp y p = .gt then y else p) ys := rfl
    by_cases hg : vcmp y p = .gt
    · have hstep' : pyMaxV p (y :: ys) = pyMaxV y ys := by rw [hstep, if_pos hg]
      obtain ⟨hmem, hself, hall⟩ := ih y
      rw [hstep']
      refine ⟨?_, ?_, ?_⟩
      · rcases hmem with hmem | hmem
        · exact .inr (by rw [hmem]; exact List.mem_cons_self y ys)
        · exact .inr (List.mem_cons_of_mem y hmem)
      · exact vcmp_ne_lt_trans hself (by rw [hg]; decide)
      · intro q hq
        rcases List.mem_cons.mp hq with hq | hq
        · exact hq ▸ hself
        · exact hall q hq
    · have hstep' : pyMaxV p (y :: ys) = pyMaxV p ys := by rw [hstep, if_neg hg]
      obtain ⟨hmem, hself, hall⟩ := ih p
      rw [hstep']
      refine ⟨?_, hself, ?_⟩
      · rcases hmem with hmem | hmem
        · exact .inl hmem
        · exact .inr (List.mem_cons_of_mem y hmem)
      · intro q hq
        rcases List.mem_cons.mp hq with hq | hq
        · exact hq ▸ vcmp_ne_lt_trans hself (vcmp_ne_lt_of_ne_gt hg)
        · exact hall q hq

/-- The fold that models Python `max` over upload timestamps returns an
element of the candidate list bounding every candidate from above. -/
theorem pyMaxDate_spec : ∀ (xs : List Int) (x : Int),
    (pyMaxDate x xs = x ∨ pyMaxDate x xs ∈ xs) ∧ x ≤ pyMaxDate x xs ∧
      ∀ y ∈ xs, y ≤ pyMaxDate x xs := by
  intro xs
  induction xs with
  | nil => intro x; exact ⟨.inl rfl, le_refl x, by simp⟩
  | cons y ys ih =>
    intro x
    have hstep : pyMaxDate x (y :: ys) = pyMaxDate (if x < y then y else x) ys := rfl
    by_cases hg : x < y
    · have hstep' : pyMaxDate x (y :: ys) = pyMaxDate y ys := by rw [hstep, if_pos hg]
      obtain ⟨hmem, hself, hall⟩ := ih y
      rw [hstep']
      refine ⟨?_, by omega, ?_⟩
      · rcases hmem with hmem | hmem
        · exact .inr (by rw [hmem]; exact List.mem_cons_self y ys)
        · exact .inr (List.mem_cons_of_mem y hmem)
      · intro z hz
        rcases List.mem_cons.mp hz with hz | hz
        · omega
        · exact hall z hz
    · have hstep' : pyMaxDate x (y :: ys) = pyMaxDate x ys := by rw [hstep, if_neg hg]
      obtain ⟨hmem, hself, hall⟩ := ih x
      rw [hstep']
      refine ⟨?_, hself, ?_⟩
      · rcases hmem with hmem | hmem
        · exact .inl hmem
        · exact .inr (List.mem_cons_of_mem y hmem)
      · intro z hz
        rcases List.mem_cons.mp hz with hz | hz
        · omega
        · exact hall z hz

/-! ### Structural facts about the classifier -/

/-- Outcome of a single classifier value in the scan of lines 54–58, written
with the specification's first-match reading: `some` verdict for a marker,
`Option.none` for any other value. -/
def specClassifierVerdict (c : PyVal) : Option Verdict :=
  if pyEqStr c "Development Status :: 7 - Inactive" then
    some ⟨true, "Marked as 'Inactive' on PyPI.", []⟩
  else if pyEqStr c "Development Status :: 6 - Mature"
      || pyEqStr c "Development Status :: 5 - Production/Stable" then
    some ⟨false, "Seems to be in a mature/stable state.", []⟩
  else Option.none

/-- The loop of lines 54–58 realises the first-match specification: the
first list element mapping to a marker verdict decides, otherwise the
fallback fires. -/
theorem scanClassifiers_eq_findSome (l : List PyVal) :
    scanClassifiers l = (l.findSome? specClassifierVerdict).getD activeVerdict := by
  induction l with
  | nil => rfl
  | cons c cs ih =>
    rw [List.findSome?_cons]
    by_cases h1 : pyEqStr c "Development Status :: 7 - Inactive" = true
    · simp [scanClassifiers, specClassifierVerdict, h1]
    · by_cases h2 : (pyEqStr c "Development Status :: 6 - Mature"
          || pyEqStr c "Development Status :: 5 - Production/Stable") = true
      · simp [scanClassifiers, specClassifierVerdict, h1, h2]
      · simp [scanClassifiers, specClassifierVerdict, h1, h2, ih]

/-- No iteration of the classifier loop can produce the rule-2 verdict. -/
theorem scanClassifiers_ne_insufficient (l : List PyVal) :
    scanClassifiers l ≠ insufficientVerdict := by
  induction l with
  | nil => decide
  | cons c cs ih =>
    unfold scanClassifiers
    by_cases h1 : pyEqStr c "Development Status :: 7 - Inactive" = true
    · rw [if_pos h1]; decide
    · rw [if_neg h1]
      by_cases h2 : (pyEqStr c "Development Status :: 6 - Mature"
          || pyEqStr c "Development Status :: 5 - Production/Stable") = true
      · rw [if_pos h2]; decide
      · rw [if_neg h2]; exact ih

/-- The classifier step never produces the rule-2 verdict. -/
theorem classifierStep_ne_insufficient (info : PyVal) :
    classifierStep info ≠ .ok insufficientVerdict := by
  unfold classifierStep
  split
  · split
    · simp
    · intro hc
      rw [Except.ok.injEq] at hc
      exact scanClassifiers_ne_insufficient _ hc
  · simp

/-- Neither the staleness verdict nor the classifier scan can produce the
rule-2 verdict. -/
theorem stalenessStep_ne_insufficient (now : Int) (info rel : PyVal) :
    stalenessStep now info rel ≠ .ok insufficientVerdict := by
  unfold stalenessStep
  split
  · split
    · intro hc
      rw [Except.ok.injEq] at hc
      have h2 := congrArg Verdict.isInactive hc
      simp [insufficientVerdict] at h2
    · exact classifierStep_ne_insufficient info
  · exact classifierStep_ne_insufficient info

/-- A positive dict membership test guarantees that the subscript succeeds. -/
theorem getItem_of_contains {d : List (String × PyVal)} {k : String}
    (h : pyContains (PyVal.dict d) k = .ok true) :
    ∃ v, dictGet? d k = some v ∧ pyGetItem (PyVal.dict d) k = .ok v := by
  have hany : d.any (fun kv => kv.1 == k) = true := by
    injection h
  have hfind : (d.find? (fun kv => kv.1 == k)).isSome := by
    rw [List.find?_isSome]
    obtain ⟨kv, hmem, hkv⟩ := List.any_eq_true.mp hany
    exact ⟨kv, hmem, hkv⟩
  obtain ⟨kv, hkv⟩ := Option.isSome_iff_exists.mp hfind
  refine ⟨kv.2, ?_, ?_⟩
  · simp [dictGet?, hkv]
  · simp [pyGetItem, dictGet?, hkv]

/-- A parse failure among the keys fails the whole comprehension of line 37
(the exception is raised collectively, not per element). -/
theorem parseAll_error_of_unparsable :
    ∀ l : List String, (∃ k ∈ l, parseVersion k = Option.none) →
      ∃ e, parseAll l = .error e := by
  intro l
  induction l with
  | nil => rintro ⟨k, hk, _⟩; cases hk
  | cons k' ks ih =>
    rintro ⟨k, hk, hbad⟩
    rcases List.mem_cons.mp hk with hk | hk
    · subst hk
      exact ⟨"InvalidVersion: " ++ k, by unfold parseAll; rw [hbad]⟩
    · unfold parseAll
      cases hp : parseVersion k' with
      | none => exact ⟨"InvalidVersion: " ++ k', rfl⟩
      | some p =>
        obtain ⟨e, he⟩ := ih ⟨k, hk, hbad⟩
        exact ⟨e, by rw [he]⟩

/-- One unparsable nonempty key makes the whole `try` block of lines 35–44
abort, leaving `latest_release_date` unset. -/
theorem computeLatest_none_of_badkey (reld : List (String × PyVal))
    (k : String) (hk : k ∈ reld.map (fun kv => kv.1)) (hne : k ≠ "")
    (hbad : parseVersion k = Option.none) :
    computeLatestReleaseDate (PyVal.dict reld) = Option.none := by
  have hmem : k ∈ (reld.map (fun kv => kv.1)).filter (fun s => s != "") := by
    rw [List.mem_filter]
    exact ⟨hk, by simp [hne]⟩
  obtain ⟨e, he⟩ := parseAll_error_of_unparsable _ ⟨k, hmem, hbad⟩
  have htr : truthy (PyVal.dict reld) = true := by
    unfold truthy
    cases reld with
    | nil => cases hk
    | cons a l => rfl
  simp [computeLatestReleaseDate, attemptLatest, htr, he]

/-- Outside the curated table the classifier proceeds to the metadata rules. -/
theorem classify_unfold (now : Int) (md : PyVal) (name : String)
    (hov : lookupOverride name = Option.none) :
    is_potentially_inactive now md name = afterOverride now md := by
  simp [is_potentially_inactive, hov]

/-- When the rule-2 tests all pass, classification continues with the bound
`info` and `releases` values. -/
theorem afterOverride_step (now : Int) (md info rel : PyVal)
    (ht : truthy md = true)
    (hci : pyContains md "info" = .ok true)
    (hcr : pyContains md "releases" = .ok true)
    (hgi : pyGetItem md "info" = .ok info)
    (hgr : pyGetItem md "releases" = .ok rel) :
    afterOverride now md = stalenessStep now info rel := by
  unfold afterOverride
  rw [ht, hci, hcr, hgi, hgr]
  rfl

/-- The staleness step succeeds whenever the classifier step does. -/
theorem stalenessStep_ok_of_classifier_ok (now : Int) (info rel : PyVal)
    (w : Verdict) (hw : classifierStep info = .ok w) :
    ∃ v, stalenessStep now info rel = .ok v := by
  unfold stalenessStep
  split
  · split
    · exact ⟨_, rfl⟩
    · exact ⟨w, hw⟩
  · exact ⟨w, hw⟩

/-! ### Claims -/

/-- C1: for every package name that is an exact key of the curated override
table, `classify` returns inactive=true with reason `"Known inactive
package: "` followed by the table entry's reason (or a default text when the
entry has none) and the entry's alternative list, for every metadata
argument, including absent metadata. -/
theorem claim_C1 (now : Int) (md : PyVal) (name : String)
    (e : OverrideEntry) (h : lookupOverride name = some e) :
    is_potentially_inactive now md name =
      .ok ⟨true,
        "Known inactive package: "
          ++ e.reason.getD "No specific reason provided.",
        e.alternatives.getD []⟩ := by
  simp [is_potentially_inactive, h]

/-- Witness for C1 at the table key `"old-package-1"` with absent metadata. -/
theorem claim_C1_witness :
    lookupOverride "old-package-1" =
      some ⟨some "No updates in over 3 years, known security vulnerabilities.",
        some ["active-package-1", "another-good-option"]⟩ ∧
    is_potentially_inactive 0 PyVal.none "old-package-1" =
      .ok ⟨true,
        "Known inactive package: No updates in over 3 years, known security vulnerabilities.",
        ["active-package-1", "another-good-option"]⟩ :=
  ⟨by decide,
   claim_C1 0 PyVal.none "old-package-1"
     ⟨some "No updates in over 3 years, known security vulnerabilities.",
      some ["active-package-1", "another-good-option"]⟩ (by decide)⟩

/-- C2 fails as stated: on absent metadata the code returns the reason
string `"Could not retrieve sufficient PyPI information."`, not
`"insufficient information"`; moreover metadata carrying only an `info`
section (so lacking just one of the two sections) also takes the very same
early return, while the claim says that case must not trigger the rule. -/
theorem claim_C2_counterexample :
    is_potentially_inactive 0 PyVal.none "requests" =
      .ok ⟨false, "Could not retrieve sufficient PyPI information.", []⟩ ∧
    "Could not retrieve sufficient PyPI information." ≠
      "insufficient information" ∧
    is_potentially_inactive 0 (PyVal.dict [("info", PyVal.dict [])])
        "requests" =
      .ok ⟨false, "Could not retrieve sufficient PyPI information.", []⟩ :=
  ⟨by decide, by decide, by decide⟩

/-- C2 amended: for a package name outside the override table and metadata
that is absent or a mapping, `classify` returns inactive=false with reason
`"Could not retrieve sufficient PyPI information."` and empty alternatives
exactly when the metadata is falsy (absent or an empty mapping) or lacks an
`info` key or lacks a `releases` key — lacking either one of the two
sections triggers the rule. -/
theorem claim_C2 (now : Int) (md : PyVal) (name : String)
    (hov : lookupOverride name = Option.none)
    (hwf : md = PyVal.none ∨ ∃ d, md = PyVal.dict d) :
    is_potentially_inactive now md name = .ok insufficientVerdict ↔
      (truthy md = false ∨ pyContains md "info" = .ok false ∨
        pyContains md "releases" = .ok false) := by
  rw [classify_unfold now md name hov]
  rcases hwf with hwf | ⟨d, hwf⟩
  · subst hwf
    simp [afterOverride, truthy]
  · subst hwf
    by_cases ht : truthy (PyVal.dict d) = true
    · have hci : pyContains (PyVal.dict d) "info" =
          .ok (d.any (fun kv => kv.1 == "info")) := rfl
      have hcr : pyContains (PyVal.dict d) "releases" =
          .ok (d.any (fun kv => kv.1 == "releases")) := rfl
      by_cases hinfo : d.any (fun kv => kv.1 == "info") = true
      · by_cases hrel : d.any (fun kv => kv.1 == "releases") = true
        · obtain ⟨vi, hvi, hgi⟩ := getItem_of_contains (by rw [hci, hinfo])
          obtain ⟨vr, hvr, hgr⟩ := getItem_of_contains (by rw [hcr, hrel])
          rw [afterOverride_step now _ vi vr ht (by rw [hci, hinfo])
            (by rw [hcr, hrel]) hgi hgr]
          constructor
          · intro hc
            exact absurd hc (stalenessStep_ne_insufficient now vi vr)
          · rintro (hc | hc | hc)
            · rw [ht] at hc; cases hc
            · rw [hci, hinfo] at hc
              have := (Except.ok.injEq ..).mp hc
              cases this
            · rw [hcr, hrel] at hc
              have := (Except.ok.injEq ..).mp hc
              cases this
        · have hrel' : d.any (fun kv => kv.1 == "releases") = false :=
            Bool.eq_false_iff.mpr hrel
          unfold afterOverride
          rw [ht, hci, hinfo, hcr, hrel']
          simp
      · have hinfo' : d.any (fun kv => kv.1 == "info") = false :=
          Bool.eq_false_iff.mpr hinfo
        unfold afterOverride
        rw [ht, hci, hinfo']
        simp
    · have ht' : truthy (PyVal.dict d) = false := Bool.eq_false_iff.mpr ht
      unfold afterOverride
      rw [ht']
      simp [ht']

/-- Witness for the amended C2: metadata with only a `releases` section (no
`info`) takes the insufficient-information return. -/
theorem claim_C2_witness :
    is_potentially_inactive 7 (PyVal.dict [("releases", PyVal.dict [])])
        "requests" = .ok insufficientVerdict :=
  (claim_C2 7 (PyVal.dict [("releases", PyVal.dict [])]) "requests"
      (by decide) (.inr ⟨_, rfl⟩)).mpr
    (.inr (.inl (by decide)))

/-- C6 fails as stated: metadata whose `info` field is a string (with both
sections present and an empty `releases` mapping, so rules 1–3 do not
return) reaches `info.get('classifiers', [])`, which raises an
`AttributeError` that no handler catches — an exception escapes `classify`. -/
theorem claim_C6_counterexample :
    is_potentially_inactive 0
        (PyVal.dict [("info", PyVal.str "oops"), ("releases", PyVal.dict [])])
        "requests" =
      .error "AttributeError: object has no attribute get" := by
  decide

/-- An `info` value that cannot make the classifier rules raise: a mapping
whose `classifiers` entry, if any, is iterable (a list, a string or a
mapping). -/
def safeInfo (info : PyVal) : Bool :=
  match info with
  | .dict di =>
    (match dictGet? di "classifiers" with
     | some (.list _) => true
     | some (.str _) => true
     | some (.dict _) => true
     | some _ => false
     | Option.none => true)
  | _ => false

/-- Safe-shape predicate for the amended C6: the metadata is absent or a
mapping, and whenever both an `info` and a `releases` key are present the
`info` value is safe in the sense of `safeInfo`. -/
def safeMeta (md : PyVal) : Bool :=
  match md with
  | .none => true
  | .dict d =>
    match dictGet? d "info", dictGet? d "releases" with
    | some info, some _ => safeInfo info
    | _, _ => true
  | _ => false

/-- C6 amended: no exception escapes `classify` provided the metadata is
absent or a mapping and, when both an `info` and a `releases` key are
present, the `info` value is a mapping whose `classifiers` entry (if
present) is iterable; outside that envelope (e.g. a non-object `info`
reaching the classifier rules) an `AttributeError`/`TypeError` propagates. -/
theorem claim_C6 (now : Int) (md : PyVal) (name : String)
    (h : safeMeta md = true) :
    ∃ v, is_potentially_inactive now md name = .ok v := by
  unfold is_potentially_inactive
  cases hov : lookupOverride name with
  | some e => exact ⟨_, rfl⟩
  | none =>
    cases md with
    | none => exact ⟨insufficientVerdict, rfl⟩
    | bool b => simp [safeMeta] at h
    | int n => simp [safeMeta] at h
    | str s => simp [safeMeta] at h
    | list xs => simp [safeMeta] at h
    | dict d =>
      by_cases ht : truthy (PyVal.dict d) = true
      · have hci : pyContains (PyVal.dict d) "info" =
            .ok (d.any (fun kv => kv.1 == "info")) := rfl
        have hcr : pyContains (PyVal.dict d) "releases" =
            .ok (d.any (fun kv => kv.1 == "releases")) := rfl
        by_cases hinfo : d.any (fun kv => kv.1 == "info") = true
        · by_cases hrel : d.any (fun kv => kv.1 == "releases") = true
          · obtain ⟨vi, hvi, hgi⟩ := getItem_of_contains (by rw [hci, hinfo])
            obtain ⟨vr, hvr, hgr⟩ := getItem_of_contains (by rw [hcr, hrel])
            rw [afterOverride_step now _ vi vr ht (by rw [hci, hinfo])
              (by rw [hcr, hrel]) hgi hgr]
            have hsafe : safeInfo vi = true := by
              have hs : safeMeta (PyVal.dict d) = true := h
              simp only [safeMeta] at hs
              rw [hvi, hvr] at hs
              simpa using hs
            have hclass : ∃ w, classifierStep vi = .ok w := by
              cases vi with
              | dict di =>
                simp only [safeInfo] at hsafe
                cases hcl : dictGet? di "classifiers" with
                | none =>
                  exact ⟨scanClassifiers [],
                    by simp [classifierStep, hcl, toIterable]⟩
                | some cv =>
                  rw [hcl] at hsafe
                  cases cv with
                  | list xs =>
                    exact ⟨scanClassifiers xs,
                      by simp [classifierStep, hcl, toIterable]⟩
                  | str s =>
                    exact ⟨scanClassifiers
                        (s.toList.map (fun c => .str (String.singleton c))),
                      by simp [classifierStep, hcl, toIterable]⟩
                  | dict dd =>
                    exact ⟨scanClassifiers (dd.map (fun kv => .str kv.1)),
                      by simp [classifierStep, hcl, toIterable]⟩
                  | none => simp at hsafe
                  | bool b => simp at hsafe
                  | int n => simp at hsafe
              | none => simp [safeInfo] at hsafe
              | bool b => simp [safeInfo] at hsafe
              | int n => simp [safeInfo] at hsafe
              | str s => simp [safeInfo] at hsafe
              | list xs => simp [safeInfo] at hsafe
            obtain ⟨w, hw⟩ := hclass
            obtain ⟨v, hv⟩ := stalenessStep_ok_of_classifier_ok now vi vr w hw
            exact ⟨v, hv⟩
          · have hrel' : d.any (fun kv => kv.1 == "releases") = false :=
              Bool.eq_false_iff.mpr hrel
            unfold afterOverride
            rw [ht, hci, hinfo, hcr, hrel']
            exact ⟨insufficientVerdict, rfl⟩
        · have hinfo' : d.any (fun kv => kv.1 == "info") = false :=
            Bool.eq_false_iff.mpr hinfo
          unfold afterOverride
          rw [ht, hci, hinfo']
          exact ⟨insufficientVerdict, rfl⟩
      · have ht' : truthy (PyVal.dict d) = false := Bool.eq_false_iff.mpr ht
        unfold afterOverride
        rw [ht']
        exact ⟨insufficientVerdict, rfl⟩

/-- Witness for the amended C6 at a fully-formed metadata document. -/
theorem claim_C6_witness :
    safeMeta (PyVal.dict [("info", PyVal.dict [("classifiers",
        PyVal.list [PyVal.str "Development Status :: 6 - Mature"])]),
      ("releases", PyVal.dict [])]) = true ∧
    ∃ v, is_potentially_inactive 0
        (PyVal.dict [("info", PyVal.dict [("classifiers",
            PyVal.list [PyVal.str "Development Status :: 6 - Mature"])]),
          ("releases", PyVal.dict [])]) "requests" = .ok v :=
  ⟨by decide,
   claim_C6 0
     (PyVal.dict [("info", PyVal.dict [("classifiers",
         PyVal.list [PyVal.str "Development Status :: 6 - Mature"])]),
       ("releases", PyVal.dict [])]) "requests" (by decide)⟩

/-- C7 fails as stated: `classify` reads the wall clock, a hidden input.
With the metadata and the package name held fixed, an invocation one year
after the release and one three-and-a-half years after it return different
verdicts. -/
theorem claim_C7_counterexample :
    is_potentially_inactive (daysFromCivil 2021 1 1)
        (PyVal.dict [("info", PyVal.dict []),
          ("releases", PyVal.dict [("1.0.0", PyVal.list
            [PyVal.dict [("upload_time",
              PyVal.str "2020-01-01T00:00:00")]])])]) "requests" ≠
      is_potentially_inactive (daysFromCivil 2023 6 1)
        (PyVal.dict [("info", PyVal.dict []),
          ("releases", PyVal.dict [("1.0.0", PyVal.list
            [PyVal.dict [("upload_time",
              PyVal.str "2020-01-01T00:00:00")]])])]) "requests" := by
  decide

/-- C7 amended: the verdict is a deterministic function of the metadata, the
package name and the current-time reading, and the current time is the only
hidden input — whenever the staleness rule cannot compute a release date
(so in particular for any metadata without a usable `releases` mapping),
identical metadata and name give identical verdicts across any two
invocation times. -/
theorem claim_C7 (now₁ now₂ : Int) (md : PyVal) (name : String)
    (h : ∀ rel, pyGetItem md "releases" = .ok rel →
      computeLatestReleaseDate rel = Option.none) :
    is_potentially_inactive now₁ md name =
      is_potentially_inactive now₂ md name := by
  unfold is_potentially_inactive
  cases lookupOverride name with
  | some e => rfl
  | none =>
    unfold afterOverride
    by_cases ht : truthy md = true
    · rw [ht]
      cases hci : pyContains md "info" with
      | error e => rfl
      | ok b1 =>
        cases b1 with
        | false => rfl
        | true =>
          cases hcr : pyContains md "releases" with
          | error e => rfl
          | ok b2 =>
            cases b2 with
            | false => rfl
            | true =>
              cases hgi : pyGetItem md "info" with
              | error e => rfl
              | ok info =>
                cases hgr : pyGetItem md "releases" with
                | error e => rfl
                | ok rel =>
                  show stalenessStep now₁ info rel = stalenessStep now₂ info rel
                  unfold stalenessStep
                  rw [h rel hgr]
    · have ht' : truthy md = false := Bool.eq_false_iff.mpr ht
      rw [ht']
      rfl

/-- Witness for the amended C7: absent metadata classifies identically at
two different clock readings. -/
theorem claim_C7_witness :
    is_potentially_inactive 0 PyVal.none "requests" =
      is_potentially_inactive 99999 PyVal.none "requests" :=
  claim_C7 0 99999 PyVal.none "requests"
    (fun rel h => by simp [pyGetItem] at h)

/-- When the computed release date does not cross the two-year cutoff (or is
absent), the staleness step defers to the classifier scan. -/
theorem stalenessStep_not_stale (now : Int) (info rel : PyVal)
    (h : ∀ d, computeLatestReleaseDate rel = some d →
      2 * (now - d) ≤ 1461) :
    stalenessStep now info rel = classifierStep info := by
  unfold stalenessStep
  split
  · rename_i d hd
    have hle := h d hd
    rw [if_neg (by omega)]
  · rfl

/-- When the computed release date crosses the two-year cutoff, the
staleness verdict is returned. -/
theorem stalenessStep_stale (now : Int) (info rel : PyVal) (d : Int)
    (hld : computeLatestReleaseDate rel = some d)
    (hst : 1461 < 2 * (now - d)) :
    stalenessStep now info rel = .ok ⟨true, staleReason (now - d), []⟩ := by
  unfold stalenessStep
  split
  · rename_i d' hd'
    rw [hld] at hd'
    injection hd' with hdd
    subst hdd
    rw [if_pos hst]
  · rename_i hd'
    rw [hld] at hd'
    cases hd'

/-- C5: when rules 1–3 do not fire, `classify` scans `info.classifiers` in
list order and the first matching value decides — `"Development Status :: 7
- Inactive"` yields the inactive verdict, `"Development Status :: 6 -
Mature"` or `"Development Status :: 5 - Production/Stable"` the
mature/stable verdict, whichever marker appears earlier in the list wins,
and with no matching classifier the verdict is `"Seems active."` (the
first-match reading is the `List.findSome?` form in the conclusion). -/
theorem claim_C5 (now : Int) (md rel : PyVal) (name : String)
    (infod : List (String × PyVal)) (cs : List PyVal)
    (hov : lookupOverride name = Option.none)
    (ht : truthy md = true)
    (hci : pyContains md "info" = .ok true)
    (hcr : pyContains md "releases" = .ok true)
    (hgi : pyGetItem md "info" = .ok (PyVal.dict infod))
    (hgr : pyGetItem md "releases" = .ok rel)
    (hstale : ∀ d, computeLatestReleaseDate rel = some d →
      2 * (now - d) ≤ 1461)
    (hcs : (dictGet? infod "classifiers").getD (PyVal.list []) =
      PyVal.list cs) :
    is_potentially_inactive now md name =
      .ok ((cs.findSome? specClassifierVerdict).getD activeVerdict) := by
  rw [classify_unfold now md name hov,
    afterOverride_step now md (PyVal.dict infod) rel ht hci hcr hgi hgr,
    stalenessStep_not_stale now (PyVal.dict infod) rel hstale]
  simp [classifierStep, hcs, toIterable, scanClassifiers_eq_findSome]

/-- Witness for C5: a mature marker listed before an inactive marker decides
(earlier in the list wins), with metadata that defeats rules 1–3. -/
theorem claim_C5_witness :
    is_potentially_inactive 0
        (PyVal.dict [("info", PyVal.dict [("classifiers", PyVal.list
          [PyVal.str "Development Status :: 5 - Production/Stable",
           PyVal.str "Development Status :: 7 - Inactive"])]),
          ("releases", PyVal.dict [])]) "requests" =
      .ok ⟨false, "Seems to be in a mature/stable state.", []⟩ :=
  claim_C5 0 (PyVal.dict [("info", PyVal.dict [("classifiers", PyVal.list
      [PyVal.str "Development Status :: 5 - Production/Stable",
       PyVal.str "Development Status :: 7 - Inactive"])]),
      ("releases", PyVal.dict [])]) (PyVal.dict []) "requests"
    [("classifiers", PyVal.list
      [PyVal.str "Development Status :: 5 - Production/Stable",
       PyVal.str "Development Status :: 7 - Inactive"])]
    [PyVal.str "Development Status :: 5 - Production/Stable",
     PyVal.str "Development Status :: 7 - Inactive"]
    (by decide) (by decide) (by decide) (by decide) rfl rfl
    (fun d hd => by simp [computeLatestReleaseDate, truthy] at hd)
    rfl

/-- C3: with rules 1–2 passed and a computed latest release date more than
two years (730.5 days) old, `classify` returns inactive=true with the
one-decimal reason and empty alternatives; the date is computed by taking
the maximum release key under real PEP 440 version ordering (the `pyMaxV`
fold returns a candidate no other candidate strictly exceeds under `vcmp`,
the full `_cmpkey` order) and the latest timestamp among that version's
entries (the `pyMaxDate` fold returns an upper bound).  The final block
evidences the ordering on non-numeric version strings: pre-release,
post-release, dev-release, epoch and local segments all parse and sort as
PEP 440 prescribes (dev < pre-release < final < post, epoch dominates,
trailing zeros are insignificant), and in particular between `"1.0.0"` and
`"2.0.0"` the selected version is `"2.0.0"`. -/
theorem claim_C3 :
    (∀ (now : Int) (md info rel : PyVal) (name : String) (d : Int),
      lookupOverride name = Option.none →
      truthy md = true →
      pyContains md "info" = .ok true →
      pyContains md "releases" = .ok true →
      pyGetItem md "info" = .ok info →
      pyGetItem md "releases" = .ok rel →
      computeLatestReleaseDate rel = some d →
      1461 < 2 * (now - d) →
      is_potentially_inactive now md name =
        .ok ⟨true, "Last release was over " ++ fmtYears1 (now - d)
          ++ " years ago.", []⟩) ∧
    (∀ (p : PyVersion) (ps : List PyVersion),
      pyMaxV p ps ∈ p :: ps ∧ ∀ q ∈ p :: ps, vcmp (pyMaxV p ps) q ≠ .lt) ∧
    (∀ (x : Int) (xs : List Int),
      pyMaxDate x xs ∈ x :: xs ∧ ∀ y ∈ x :: xs, y ≤ pyMaxDate x xs) ∧
    (parseVersion "1.0rc1" =
      some ⟨0, [1, 0], some (2, 1), Option.none, Option.none, Option.none⟩ ∧
     parseVersion "2013b" =
      some ⟨0, [2013], some (1, 0), Option.none, Option.none, Option.none⟩ ∧
     parseVersion "1!0.5" =
      some ⟨1, [0, 5], Option.none, Option.none, Option.none, Option.none⟩ ∧
     parseVersion "1.0.post1.dev2+ubuntu.7" =
      some ⟨0, [1, 0], Option.none, some 1, some 2,
        some [LocalSeg.str "ubuntu", LocalSeg.num 7]⟩ ∧
     Option.map₂ vcmp (parseVersion "1.0rc1") (parseVersion "1.0") =
      some .lt ∧
     Option.map₂ vcmp (parseVersion "1.0.dev1") (parseVersion "1.0rc1") =
      some .lt ∧
     Option.map₂ vcmp (parseVersion "1.0b1") (parseVersion "1.0rc1") =
      some .lt ∧
     Option.map₂ vcmp (parseVersion "1.0") (parseVersion "1.0.post1") =
      some .lt ∧
     Option.map₂ vcmp (parseVersion "1.0") (parseVersion "1.0+ubuntu.1") =
      some .lt ∧
     Option.map₂ vcmp (parseVersion "1!0.1") (parseVersion "2.0") =
      some .gt ∧
     Option.map₂ vcmp (parseVersion "1.0") (parseVersion "1") = some .eq ∧
     Option.map₂ (fun a b => renderVersion (pyMaxV a [b]))
      (parseVersion "1.0.0") (parseVersion "2.0.0") = some "2.0.0" ∧
     Option.map₂ (fun a b => renderVersion (pyMaxV a [b]))
      (parseVersion "1.0rc1") (parseVersion "1.0") = some "1.0" ∧
     computeLatestReleaseDate (PyVal.dict
      [("1.0.0", PyVal.list [PyVal.dict
        [("upload_time", PyVal.str "2019-06-01T00:00:00")]]),
       ("2.0.0", PyVal.list [PyVal.dict
        [("upload_time", PyVal.str "2021-03-04T05:06:07")]])]) =
      parseDate "2021-03-04T05:06:07" ∧
     computeLatestReleaseDate (PyVal.dict
      [("1.0rc1", PyVal.list [PyVal.dict
        [("upload_time", PyVal.str "2019-06-01T00:00:00")]]),
       ("1.0", PyVal.list [PyVal.dict
        [("upload_time", PyVal.str "2021-03-04T05:06:07")]])]) =
      parseDate "2021-03-04T05:06:07" ∧
     staleReason 2048 = "Last release was over 5.6 years ago.") := by
  refine ⟨?_, ?_, ?_, by decide⟩
  · intro now md info rel name d hov ht hci hcr hgi hgr hld hst
    rw [classify_unfold now md name hov,
      afterOverride_step now md info rel ht hci hcr hgi hgr,
      stalenessStep_stale now info rel d hld hst]
    rfl
  · intro p ps
    obtain ⟨hmem, hself, hall⟩ := pyMaxV_spec ps p
    constructor
    · rcases hmem with h | h
      · rw [h]; exact List.mem_cons_self p ps
      · exact List.mem_cons_of_mem p h
    · intro q hq
      rcases List.mem_cons.mp hq with h | h
      · rw [h]; exact hself
      · exact hall q h
  · intro x xs
    obtain ⟨hmem, hself, hall⟩ := pyMaxDate_spec xs x
    constructor
    · rcases hmem with h | h
      · rw [h]; exact List.mem_cons_self x xs
      · exact List.mem_cons_of_mem x h
    · intro y hy
      rcases List.mem_cons.mp hy with h | h
      · rw [h]; exact hself
      · exact hall y h

/-- Witness for C3: the two-version document at a clock 2048 days past the
selected `"2.0.0"` upload timestamp classifies as stale with the reason
formatted to one decimal place. -/
theorem claim_C3_witness :
    is_potentially_inactive (daysFromCivil 2026 10 12)
        (PyVal.dict [("info", PyVal.dict []),
          ("releases", PyVal.dict
            [("1.0.0", PyVal.list [PyVal.dict
              [("upload_time", PyVal.str "2019-06-01T00:00:00")]]),
             ("2.0.0", PyVal.list [PyVal.dict
              [("upload_time", PyVal.str "2021-03-04T05:06:07")]])])])
        "requests" =
      .ok ⟨true, "Last release was over 5.6 years ago.", []⟩ :=
  claim_C3.1 (daysFromCivil 2026 10 12)
    (PyVal.dict [("info", PyVal.dict []),
      ("releases", PyVal.dict
        [("1.0.0", PyVal.list [PyVal.dict
          [("upload_time", PyVal.str "2019-06-01T00:00:00")]]),
         ("2.0.0", PyVal.list [PyVal.dict
          [("upload_time", PyVal.str "2021-03-04T05:06:07")]])])])
    (PyVal.dict [])
    (PyVal.dict
      [("1.0.0", PyVal.list [PyVal.dict
        [("upload_time", PyVal.str "2019-06-01T00:00:00")]]),
       ("2.0.0", PyVal.list [PyVal.dict
        [("upload_time", PyVal.str "2021-03-04T05:06:07")]])])
    "requests" 18690 (by decide) (by decide) (by decide) (by decide)
    rfl rfl (by decide) (by decide)

/-- C4 fails as stated: with releases `{"1.0.0": [entry of 2000-01-01],
"not-a-version": []}` at a clock far past 2000, the surviving key `"1.0.0"`
parses and would cross the two-year cutoff, yet the verdict is `"Seems
active."` — one malformed version key aborts the whole staleness
comparison (the exception is caught around the whole block), it is not
skipped individually. -/
theorem claim_C4_counterexample :
    is_potentially_inactive (daysFromCivil 2026 10 12)
        (PyVal.dict [("info", PyVal.dict []),
          ("releases", PyVal.dict
            [("1.0.0", PyVal.list [PyVal.dict
              [("upload_time", PyVal.str "2000-01-01T00:00:00")]]),
             ("not-a-version", PyVal.list [])])]) "requests" =
      .ok activeVerdict ∧
    parseVersion "1.0.0" =
      some ⟨0, [1, 0, 0], Option.none, Option.none, Option.none,
        Option.none⟩ ∧
    parseVersion "not-a-version" = Option.none ∧
    parseDate "2000-01-01T00:00:00" = some 10957 ∧
    1461 < 2 * (daysFromCivil 2026 10 12 - 10957) ∧
    computeLatestReleaseDate (PyVal.dict
      [("1.0.0", PyVal.list [PyVal.dict
        [("upload_time", PyVal.str "2000-01-01T00:00:00")]]),
       ("not-a-version", PyVal.list [])]) = Option.none :=
  ⟨by decide, by decide, by decide, by decide, by decide, by decide⟩

/-- C4 amended: if any nonempty release key fails to parse as a version, the
entire staleness computation is abandoned for that package — the exception
from the comprehension is caught around the whole block (emitting a
diagnostic), `latest_release_date` stays unset, and classification proceeds
to the classifier rules; no individual key is skipped and no exception
escapes the function from this block. -/
theorem claim_C4 (now : Int) (md info : PyVal) (name : String)
    (reld : List (String × PyVal)) (k : String)
    (hov : lookupOverride name = Option.none)
    (ht : truthy md = true)
    (hci : pyContains md "info" = .ok true)
    (hcr : pyContains md "releases" = .ok true)
    (hgi : pyGetItem md "info" = .ok info)
    (hgr : pyGetItem md "releases" = .ok (PyVal.dict reld))
    (hk : k ∈ reld.map (fun kv => kv.1)) (hne : k ≠ "")
    (hbad : parseVersion k = Option.none) :
    computeLatestReleaseDate (PyVal.dict reld) = Option.none ∧
    is_potentially_inactive now md name = classifierStep info := by
  have hnone := computeLatest_none_of_badkey reld k hk hne hbad
  refine ⟨hnone, ?_⟩
  rw [classify_unfold now md name hov,
    afterOverride_step now md info (PyVal.dict reld) ht hci hcr hgi hgr]
  unfold stalenessStep
  rw [hnone]

/-- Witness for the amended C4 at the counterexample's releases mapping. -/
theorem claim_C4_witness :
    computeLatestReleaseDate (PyVal.dict
      [("1.0.0", PyVal.list [PyVal.dict
        [("upload_time", PyVal.str "2000-01-01T00:00:00")]]),
       ("not-a-version", PyVal.list [])]) = Option.none ∧
    is_potentially_inactive 20000
        (PyVal.dict [("info", PyVal.dict []),
          ("releases", PyVal.dict
            [("1.0.0", PyVal.list [PyVal.dict
              [("upload_time", PyVal.str "2000-01-01T00:00:00")]]),
             ("not-a-version", PyVal.list [])])]) "requests" =
      classifierStep (PyVal.dict []) :=
  claim_C4 20000
    (PyVal.dict [("info", PyVal.dict []),
      ("releases", PyVal.dict
        [("1.0.0", PyVal.list [PyVal.dict
          [("upload_time", PyVal.str "2000-01-01T00:00:00")]]),
         ("not-a-version", PyVal.list [])])])
    (PyVal.dict []) "requests"
    [("1.0.0", PyVal.list [PyVal.dict
      [("upload_time", PyVal.str "2000-01-01T00:00:00")]]),
     ("not-a-version", PyVal.list [])]
    "not-a-version" (by decide) (by decide) (by decide) (by decide)
    rfl rfl (by decide) (by decide) (by decide)

/-- The accumulation loop of `parse_pyproject_toml` over a string-valued
dependency table produces, in table order, `key ++ constraint` for every key
other than `python`, dropping the constraint exactly when it is `"*"`. -/
theorem poetryDeps_foldl (deps : List (String × String)) :
    ∀ acc : List String,
      (deps.map (fun kv => (kv.1, PyVal.str kv.2))).foldl poetryDepStep acc =
        acc ++ (deps.filter (fun kv => kv.1 != "python")).map
          (fun kv => kv.1 ++ (if kv.2 = "*" then "" else kv.2)) := by
  induction deps with
  | nil => intro acc; simp
  | cons kv rest ih =>
    intro acc
    simp only [List.map_cons, List.foldl_cons, List.filter_cons]
    by_cases hp : kv.1 = "python"
    · simp [poetryDepStep, hp, ih]
    · by_cases hv : kv.2 = "*"
      · simp [poetryDepStep, hp, hv, pyEqStr, pyStr, ih]
      · simp [poetryDepStep, hp, hv, pyEqStr, pyStr, ih]

/-- C8: on a well-formed document whose `tool.poetry.dependencies` table is
present with string constraints, the structured-table parser returns, in
table order, `key ++ constraint` for every key other than `python`, omitting
the constraint when it equals `"*"`; in particular the django/python table
yields `["django^4.0"]` and the flask wildcard table yields `["flask"]`. -/
theorem claim_C8 :
    (∀ deps : List (String × String),
      parse_pyproject_toml (mkPoetryDoc deps) =
        .ok ((deps.filter (fun kv => kv.1 != "python")).map
          (fun kv => kv.1 ++ (if kv.2 = "*" then "" else kv.2)))) ∧
    parse_pyproject_toml
        (mkPoetryDoc [("django", "^4.0"), ("python", "^3.10")]) =
      .ok ["django^4.0"] ∧
    parse_pyproject_toml (mkPoetryDoc [("flask", "*")]) = .ok ["flask"] := by
  refine ⟨?_, by decide, by decide⟩
  intro deps
  show Except.ok
      ((deps.map (fun kv => (kv.1, PyVal.str kv.2))).foldl poetryDepStep []) =
    _
  rw [poetryDeps_foldl deps []]
  rfl

/-- C9: on a setup file whose `install_requires` bracketed list literal is
empty, the code-embedded parser returns the one-element list containing the
empty string — Python `"".split(",")` yields `[""]` — not the empty list. -/
theorem claim_C9 (content : String)
    (h : findInstallRequires content = some "") :
    parse_setup_py content = [""] := by
  unfold parse_setup_py
  rw [h]
  rfl

/-- Witness for C9 on a concrete one-line setup file. -/
theorem claim_C9_witness :
    findInstallRequires "setup(install_requires=[])" = some "" ∧
    parse_setup_py "setup(install_requires=[])" = [""] :=
  ⟨by decide, claim_C9 "setup(install_requires=[])" (by decide)⟩

/-- The filename loop sorts each visited file into the bucket of its exact
manifest name, in file order. -/
theorem fileStep_foldl (files : List String) :
    ∀ (root : String) (acc : DependencyFiles),
      files.foldl (fileStep root) acc =
        ⟨acc.requirements ++ (files.filter
            (fun f => f == "requirements.txt")).map (osPathJoin root),
         acc.setup ++ (files.filter
            (fun f => f == "setup.py")).map (osPathJoin root),
         acc.pyproject ++ (files.filter
            (fun f => f == "pyproject.toml")).map (osPathJoin root)⟩ := by
  induction files with
  | nil => intro root acc; simp
  | cons f fs ih =>
    intro root acc
    simp only [List.foldl_cons, List.filter_cons]
    by_cases h1 : f = "requirements.txt"
    · subst h1; simp [fileStep, ih]
    · by_cases h2 : f = "setup.py"
      · subst h2; simp [fileStep, ih]
      · by_cases h3 : f = "pyproject.toml"
        · subst h3; simp [fileStep, ih]
        · simp [fileStep, h1, h2, h3, ih]

/-- The directory loop concatenates the per-directory buckets in traversal
order. -/
theorem walkStep_foldl (walk : List WalkEntry) :
    ∀ acc : DependencyFiles,
      walk.foldl walkStep acc =
        ⟨acc.requirements ++ walkMatches "requirements.txt" walk,
         acc.setup ++ walkMatches "setup.py" walk,
         acc.pyproject ++ walkMatches "pyproject.toml" walk⟩ := by
  induction walk with
  | nil => intro acc; simp [walkMatches]
  | cons e es ih =>
    intro acc
    simp only [List.foldl_cons]
    have hsw : walkStep acc e = e.files.foldl (fileStep e.root) acc := rfl
    rw [hsw, fileStep_foldl e.files e.root acc, ih]
    simp [walkMatches, List.flatMap_cons, List.append_assoc]

/-- C10: for every traversal that `os.walk` yields — including the empty
traversal produced for a nonexistent root, where `os.walk` raises nothing —
the finder returns a record with exactly the three buckets `requirements`,
`setup`, `pyproject`, each the ordered sequence of joined paths of files
with the exact matching name; for a nonexistent root all three buckets are
empty. -/
theorem claim_C10 :
    (∀ walk : List WalkEntry,
      find_dependency_files walk =
        ⟨walkMatches "requirements.txt" walk,
         walkMatches "setup.py" walk,
         walkMatches "pyproject.toml" walk⟩) ∧
    find_dependency_files [] = ⟨[], [], []⟩ := by
  constructor
  · intro walk
    unfold find_dependency_files
    rw [walkStep_foldl walk ⟨[], [], []⟩]
    simp
  · rfl

end LibFix
